import Mathlib

/-!
Shallow embedding of the slf4ts-api logging facade
(`src/unnamed/part_000`, the current `LoggerFactory.ts`).

The facade consists of `DefaultLoggerInstance` (leveled log methods that
filter on the instance's cached log level and forward to the bound
implementation's `log` method) and `LoggerFactory` (a process-wide cache of
instances keyed by the compound string `group + ":" + name`, with lazy
one-time initialization that selects the first discovered binding).

`LoggerConfiguration.ts` and `LoggerBindings.ts` are not among the given
source files; the definitions that stand in for them are marked
"Modelled from the spec" and follow the spec's words.
-/

namespace Slf4ts

/-- Modelled from the spec: the `LogLevel` enum lives in
`LoggerConfiguration.ts`, which is not among the given source files.
Spec section 2 allows "reverse numeric ordering" and section 4.1 demands a
numeric encoding in which the source's single comparison
`logLevel <= this.logLevel` answers "is the message at-or-above the
threshold in severity"; hence `ERROR` is the smallest member and `TRACE`
the largest, mirroring a TypeScript `enum { ERROR, WARN, INFO, DEBUG, TRACE }`. -/
inductive LogLevel where
  | ERROR
  | WARN
  | INFO
  | DEBUG
  | TRACE
deriving DecidableEq

/-- The numeric value of the TypeScript enum member (`ERROR = 0` … `TRACE = 4`). -/
def LogLevel.toNat : LogLevel → Nat
  | .ERROR => 0
  | .WARN => 1
  | .INFO => 2
  | .DEBUG => 3
  | .TRACE => 4

/-- Severity in the spec's order (section 2: TRACE < DEBUG < INFO < WARN < ERROR).
This is the spec-side notion used to state "at-or-above in severity";
it is deliberately independent of the enum's numeric encoding. -/
def LogLevel.severity : LogLevel → Nat
  | .TRACE => 0
  | .DEBUG => 1
  | .INFO => 2
  | .WARN => 3
  | .ERROR => 4

/-- A JavaScript `Error` object (only its identity matters to the facade). -/
structure ErrObj where
  msg : String
deriving DecidableEq

/-- Association-list lookup: the model of `Map.get` / keyed field access.
Returns the value of the first entry whose key matches. -/
def assocGet {α β : Type} [DecidableEq α] : List (α × β) → α → Option β
  | [], _ => none
  | p :: rest, key => if p.1 = key then some p.2 else assocGet rest key

/-- Association-list update: the model of `Map.set` — overwrite the first
entry with the key, or append a new entry. -/
def assocSet {α β : Type} [DecidableEq α] : List (α × β) → α → β → List (α × β)
  | [], key, v => [(key, v)]
  | p :: rest, key, v =>
    if p.1 = key then (key, v) :: rest else p :: assocSet rest key v

/-- A metadata bag: the model of a plain JavaScript object, as a key-value
association list. -/
abbrev MetaBag : Type := List (String × Nat)

/-- The model of the object spread `{ ...a, ...b }`: a bag whose lookup
yields `b`'s value on every key of `b` and `a`'s value on the remaining
keys of `a` (later spreads win on key collisions). -/
def spreadBags (a b : MetaBag) : MetaBag :=
  (a.filter fun kv => (assocGet b kv.1).isNone) ++ b

/-- Lookup in a metadata bag. -/
def bagGet (m : MetaBag) (key : String) : Option Nat :=
  assocGet m key

/-- The `metadata?: any | Error` argument of the log methods: absent
(`undefined`/`null`), an `Error` instance (the `metadata instanceof Error`
branch), or a plain metadata object. -/
inductive MetaArg where
  | undef
  | err (e : ErrObj)
  | bag (m : MetaBag)
deriving DecidableEq

/-- The bag a non-`Error` metadata argument contributes to the spread
(`{ ...this.commonMetadata, ...metadata }`): spreading `undefined` or
`null` contributes nothing. -/
def MetaArg.asBag : MetaArg → MetaBag
  | .bag m => m
  | _ => []

/-- The six arguments the facade hands to the bound implementation's
`log` method: `impl.log(logLevel, group, name, message, error, metadata)`. -/
structure LogRecord where
  level : LogLevel
  group : String
  name : String
  message : String
  error : Option ErrObj
  metadata : MetaBag
deriving DecidableEq

/-- The observable outcome of one leveled log call: either the
already-completed no-op result (level below threshold, implementation
untouched), or a forwarded call to `impl.log` carrying the implementation
reference (`none` models the `LOGGER` static still being `undefined`)
and the record. -/
inductive LogResult where
  | noop
  | forwarded (impl : Option Nat) (record : LogRecord)
deriving DecidableEq

def LogResult.isForwarded : LogResult → Bool
  | .noop => false
  | .forwarded _ _ => true

/-- The state of a `DefaultLoggerInstance`: `id` models JavaScript object
identity (reference equality), the remaining fields are the private fields
of the class. `commonMetadata` starts as the empty bag (the field starts
`undefined` and `{ ...undefined }` is `{}`). -/
structure LoggerInst where
  id : Nat
  name : String
  group : String
  logLevel : LogLevel
  impl : Option Nat
  commonMetadata : MetaBag
deriving DecidableEq

/-- `DefaultLoggerInstance.log` (src/unnamed/part_000 lines 161-169):
filter on `logLevel <= this.logLevel`; an `Error` metadata argument is
forwarded in the error position with a copy of the common metadata as the
bag, otherwise the metadata argument is spread over the common metadata
and the explicit error argument is forwarded. -/
def DefaultLoggerInstance.log (inst : LoggerInst) (logLevel : LogLevel)
    (message : String) (metadata : MetaArg) (error : Option ErrObj) : LogResult :=
  if logLevel.toNat ≤ inst.logLevel.toNat then
    match metadata with
    | .err e =>
      .forwarded inst.impl
        ⟨logLevel, inst.group, inst.name, message, some e, spreadBags [] inst.commonMetadata⟩
    | md =>
      .forwarded inst.impl
        ⟨logLevel, inst.group, inst.name, message, error, spreadBags inst.commonMetadata md.asBag⟩
  else
    .noop

def DefaultLoggerInstance.trace (inst : LoggerInst) (message : String)
    (metadata : MetaArg) (error : Option ErrObj) : LogResult :=
  DefaultLoggerInstance.log inst .TRACE message metadata error

def DefaultLoggerInstance.debug (inst : LoggerInst) (message : String)
    (metadata : MetaArg) (error : Option ErrObj) : LogResult :=
  DefaultLoggerInstance.log inst .DEBUG message metadata error

def DefaultLoggerInstance.info (inst : LoggerInst) (message : String)
    (metadata : MetaArg) (error : Option ErrObj) : LogResult :=
  DefaultLoggerInstance.log inst .INFO message metadata error

def DefaultLoggerInstance.warn (inst : LoggerInst) (message : String)
    (metadata : MetaArg) (error : Option ErrObj) : LogResult :=
  DefaultLoggerInstance.log inst .WARN message metadata error

def DefaultLoggerInstance.error (inst : LoggerInst) (message : String)
    (metadata : MetaArg) (error : Option ErrObj) : LogResult :=
  DefaultLoggerInstance.log inst .ERROR message metadata error

/-- `DefaultLoggerInstance.setMetadata`: full replacement of the common
metadata. -/
def DefaultLoggerInstance.setMetadata (inst : LoggerInst) (m : MetaBag) : LoggerInst :=
  { inst with commonMetadata := m }

/-- A discovered logger binding (the external collaborator contract of
spec section 6): vendor, version, and the implementation its
`getLoggerImplementation()` produces, modelled by an identifier. -/
structure Binding where
  vendor : String
  version : String
  implId : Nat
deriving DecidableEq

/-- Modelled from the spec: the selector scope of a level override or a
level-change subscription in `LoggerConfiguration.ts` (not among the
given source files) — exact `(group, name)` key, group only, or global. -/
inductive Selector where
  | exact (group name : String)
  | group (group : String)
  | global
deriving DecidableEq

/-- A level-change subscription registered with
`LoggerConfiguration.onLogLevelChanged(callback, group?, name?)`: the
callbacks the facade registers all do `this.logLevel = event.logLevel` on
one instance, so a subscription is modelled by its scope and the
subscribing instance's identity. -/
structure Subscription where
  scope : Selector
  instId : Nat
deriving DecidableEq

/-- Modelled from the spec: the level-override state of
`LoggerConfiguration.ts` (not among the given source files) — overrides
per exact key, per group, and the global default override. -/
structure ConfigState where
  exactLevels : List ((String × String) × LogLevel)
  groupLevels : List (String × LogLevel)
  globalLevel : Option LogLevel
deriving DecidableEq

/-- Modelled from the spec (section 4.2): `getLogLevel(group, name)`
resolves in precedence order exact override, then group override, then
global default, failing over to the built-in default `INFO`. -/
def ConfigState.getLogLevel (c : ConfigState) (group name : String) : LogLevel :=
  match assocGet c.exactLevels (group, name) with
  | some lvl => lvl
  | none =>
    match assocGet c.groupLevels group with
    | some lvl => lvl
    | none => c.globalLevel.getD LogLevel.INFO

/-- Modelled from the spec: `setLogLevel(level, group?, name?)` applies an
override at the given selector. -/
def ConfigState.setLevel (c : ConfigState) (level : LogLevel) (sel : Selector) : ConfigState :=
  match sel with
  | .exact g n => { c with exactLevels := assocSet c.exactLevels (g, n) level }
  | .group g => { c with groupLevels := assocSet c.groupLevels g level }
  | .global => { c with globalLevel := some level }

/-- The process-wide state of the facade: the module-level constants
(`BINDINGS`, discovered once at module load — `discoveryRuns` counts the
runs of `new LoggerBindings().getBindings()`), the `LoggerFactory`
statics (`LOGGER`, `INITIALIZED`, `LOGGER_INSTANCE_CACHE`), the
configuration registry with its subscriptions, and instrumentation:
`initRuns` counts the runs of `LoggerFactory.initialize`, `infoEmits`
records every `info` call the factory itself makes (root-logger group,
name and message), `nextId` allocates object identities. -/
structure FactoryState where
  bindings : List Binding
  discoveryRuns : Nat
  initRuns : Nat
  initialized : Bool
  logger : Option Nat
  cache : List (String × LoggerInst)
  nextId : Nat
  config : ConfigState
  subs : List Subscription
  infoEmits : List (String × String × String)
deriving DecidableEq

/-- Module load: `const BINDINGS = new LoggerBindings().getBindings()` runs
exactly once, the factory statics start uninitialized, the configuration
holds no overrides. -/
def moduleLoad (discovered : List Binding) : FactoryState where
  bindings := discovered
  discoveryRuns := 1
  initRuns := 0
  initialized := false
  logger := none
  cache := []
  nextId := 0
  config := { exactLevels := [], groupLevels := [], globalLevel := none }
  subs := []
  infoEmits := []

/-- The compound cache key of `LoggerFactory.getLogger`. -/
def compoundKey (group name : String) : String :=
  group ++ ":" ++ name

/-- One line of the multiple-bindings message:
`"\n  " + vendor + " - " + version`. -/
def bindingLine (b : Binding) : String :=
  "\n  " ++ b.vendor ++ " - " ++ b.version

/-- The message `LoggerFactory.initialize` builds when more than one
binding was discovered. -/
def multipleBindingsMessage (bindings : List Binding) (selected : Binding) : String :=
  (bindings.foldl (fun m b => m ++ bindingLine b) "multiple bindings found:")
    ++ "\n  using " ++ selected.vendor ++ " - " ++ selected.version

/-- The cache-hit-or-construct body of `LoggerFactory.getLogger`
(src/unnamed/part_000 lines 196-203), reached with `INITIALIZED` already
true; also what `LoggerFactory.initialize` reaches through its recursive
`LoggerFactory.getLogger()` call. On a miss the `DefaultLoggerInstance`
constructor resolves the level from the configuration and registers the
three level-change subscriptions (exact key, group, global,
src/unnamed/part_000 lines 110-112). -/
def FactoryState.getLoggerCached (s : FactoryState) (group name : String) :
    LoggerInst × FactoryState :=
  match assocGet s.cache (compoundKey group name) with
  | some inst => (inst, s)
  | none =>
    let inst : LoggerInst :=
      { id := s.nextId
        name := name
        group := group
        logLevel := s.config.getLogLevel group name
        impl := s.logger
        commonMetadata := [] }
    (inst,
      { s with
          cache := s.cache ++ [(compoundKey group name, inst)]
          subs := s.subs ++
            [⟨.exact group name, s.nextId⟩, ⟨.group group, s.nextId⟩, ⟨.global, s.nextId⟩]
          nextId := s.nextId + 1 })

/-- `LoggerFactory.initialize` (src/unnamed/part_000 lines 225-238):
throw when no binding was discovered (`BINDING` is `BINDINGS[0]`),
otherwise select the first binding's implementation, fetch the root
logger, and when more than one binding was discovered call `info` on the
root logger with the multiple-bindings message. -/
def FactoryState.initStep (s : FactoryState) : Except String Unit × FactoryState :=
  let s1 := { s with initRuns := s.initRuns + 1 }
  match s.bindings.head? with
  | none => (.error "No Logger Binding found", s1)
  | some b =>
    let p := ({ s1 with logger := some b.implId } : FactoryState).getLoggerCached "" ""
    if s.bindings.length > 1 then
      (.ok (),
        { p.2 with infoEmits := p.2.infoEmits ++
            [(p.1.group, p.1.name, multipleBindingsMessage s.bindings b)] })
    else
      (.ok (), p.2)

/-- `LoggerFactory.getLogger` (src/unnamed/part_000 lines 190-204): on the
first call ever, set `INITIALIZED` before running `initialize`, so a
thrown initialization error propagates while the flag stays set; then the
cache-hit-or-construct body. -/
def FactoryState.getLogger (s : FactoryState) (group name : String) :
    Except String LoggerInst × FactoryState :=
  if s.initialized then
    let p := s.getLoggerCached group name
    (.ok p.1, p.2)
  else
    let r := FactoryState.initStep { s with initialized := true }
    match r.1 with
    | .error e => (.error e, r.2)
    | .ok _ =>
      let p := r.2.getLoggerCached group name
      (.ok p.1, p.2)

/-- `LoggerFactory.reset` (src/unnamed/part_000 lines 213-218): always
clear the instance cache; when the flag is set, also clear `INITIALIZED`. -/
def FactoryState.reset (s : FactoryState) (resetLoggerImplementation : Bool) : FactoryState :=
  let s1 := { s with cache := [] }
  if resetLoggerImplementation then { s1 with initialized := false } else s1

/-- The effect of one level-change event on one cached instance: when the
instance holds a subscription at the event's selector, its registered
callbacks run `this.logLevel = event.logLevel`. -/
def applyLevelEvent (subs : List Subscription) (level : LogLevel) (sel : Selector)
    (p : String × LoggerInst) : String × LoggerInst :=
  if (⟨sel, p.2.id⟩ : Subscription) ∈ subs then
    (p.1, { p.2 with logLevel := level })
  else
    p

/-- Modelled from the spec (section 4.2): `setLogLevel` applies the
override and synchronously triggers the subscriptions registered at the
changed selector; every triggered callback of the facade sets the
subscribing instance's cached level to the event's level. -/
def FactoryState.setLogLevel (s : FactoryState) (level : LogLevel) (sel : Selector) :
    FactoryState :=
  { s with
      config := s.config.setLevel level sel
      cache := s.cache.map (applyLevelEvent s.subs level sel) }

/-- The states the facade can reach: module load followed by any sequence
of `getLogger` (either outcome), `reset`, and `setLogLevel` calls. -/
inductive Reachable : FactoryState → Prop
  | load (discovered : List Binding) : Reachable (moduleLoad discovered)
  | get (s : FactoryState) (group name : String) :
      Reachable s → Reachable (s.getLogger group name).2
  | reset (s : FactoryState) (b : Bool) :
      Reachable s → Reachable (s.reset b)
  | setLevel (s : FactoryState) (level : LogLevel) (sel : Selector) :
      Reachable s → Reachable (s.setLogLevel level sel)

/-- The invariant over the cache, identity allocator and subscription list:
at most one instance per cache key, all cached identities already
allocated, and every cached instance holding its three constructor-time
subscriptions. -/
def InvC (cache : List (String × LoggerInst)) (nextId : Nat) (subs : List Subscription) : Prop :=
  (∀ k i j, (k, i) ∈ cache → (k, j) ∈ cache → i = j)
  ∧ (∀ p ∈ cache, p.2.id < nextId)
  ∧ (∀ p ∈ cache,
      (⟨.exact p.2.group p.2.name, p.2.id⟩ : Subscription) ∈ subs
      ∧ (⟨.group p.2.group, p.2.id⟩ : Subscription) ∈ subs
      ∧ (⟨.global, p.2.id⟩ : Subscription) ∈ subs)

/-- The invariant of a factory state. -/
def Inv (s : FactoryState) : Prop :=
  InvC s.cache s.nextId s.subs

theorem assocGet_append_some {α β : Type} [DecidableEq α] {l : List (α × β)}
    (l' : List (α × β)) {k : α} {v : β} (h : assocGet l k = some v) :
    assocGet (l ++ l') k = some v := by
  induction l with
  | nil => simp [assocGet] at h
  | cons p rest ih =>
    by_cases hk : p.1 = k
    · simpa [assocGet, hk] using h
    · simp [assocGet, hk] at h ⊢
      exact ih h

theorem assocGet_append_none {α β : Type} [DecidableEq α] {l : List (α × β)}
    (l' : List (α × β)) {k : α} (h : assocGet l k = none) :
    assocGet (l ++ l') k = assocGet l' k := by
  induction l with
  | nil => simp
  | cons p rest ih =>
    by_cases hk : p.1 = k
    · simp [assocGet, hk] at h
    · simp [assocGet, hk] at h ⊢
      exact ih h

theorem not_mem_of_assocGet_none {α β : Type} [DecidableEq α] {l : List (α × β)}
    {k : α} (h : assocGet l k = none) (v : β) : (k, v) ∉ l := by
  induction l with
  | nil => simp
  | cons p rest ih =>
    by_cases hk : p.1 = k
    · simp [assocGet, hk] at h
    · simp [assocGet, hk] at h
      intro hmem
      rcases List.mem_cons.mp hmem with hp | hp
      · exact hk (by rw [← hp])
      · exact ih h hp

theorem assocGet_filter_of_false {α β : Type} [DecidableEq α] {l : List (α × β)}
    {P : α × β → Bool} {k : α} (h : ∀ v, P (k, v) = false) :
    assocGet (l.filter P) k = none := by
  induction l with
  | nil => simp [assocGet]
  | cons p rest ih =>
    cases hP : P p with
    | false => simpa [List.filter, hP] using ih
    | true =>
      have hk : p.1 ≠ k := by
        intro hk
        have hkk : P (k, p.2) = true := by
          rw [← hk]
          exact hP
        rw [h p.2] at hkk
        exact Bool.false_ne_true hkk
      simpa [List.filter, hP, assocGet, hk] using ih

theorem assocGet_filter_of_true {α β : Type} [DecidableEq α] {l : List (α × β)}
    {P : α × β → Bool} {k : α} (h : ∀ v, P (k, v) = true) :
    assocGet (l.filter P) k = assocGet l k := by
  induction l with
  | nil => simp
  | cons p rest ih =>
    by_cases hk : p.1 = k
    · have hP : P p = true := by
        have : p = (k, p.2) := by rw [← hk]
        rw [this]
        exact h p.2
      simp [List.filter, hP, assocGet, hk]
    · cases hP : P p with
      | true => simpa [List.filter, hP, assocGet, hk] using ih
      | false => simpa [List.filter, hP, assocGet, hk] using ih

/-- Lookup semantics of the object spread `{ ...a, ...b }`: `b`'s entries
override `a`'s. -/
theorem bagGet_spreadBags (a b : MetaBag) (k : String) :
    bagGet (spreadBags a b) k =
      match bagGet b k with
      | some v => some v
      | none => bagGet a k := by
  unfold bagGet spreadBags
  cases hb : assocGet b k with
  | some v =>
    have hfilter : assocGet (a.filter fun kv => (assocGet b kv.1).isNone) k = none :=
      assocGet_filter_of_false (fun w => by simp [hb])
    simpa [assocGet_append_none _ hfilter] using hb
  | none =>
    have hfilter : assocGet (a.filter fun kv => (assocGet b kv.1).isNone) k = assocGet a k :=
      assocGet_filter_of_true (fun w => by simp [hb])
    cases ha : assocGet a k with
    | some v =>
      rw [assocGet_append_some b (by rw [hfilter, ha])]
    | none =>
      rw [assocGet_append_none b (by rw [hfilter, ha]), hb]

/-- The source's filter `logLevel <= this.logLevel` on the enum encoding
coincides with the spec's "at-or-above the threshold in severity". -/
theorem toNat_le_iff_severity_le (lvl threshold : LogLevel) :
    lvl.toNat ≤ threshold.toNat ↔ threshold.severity ≤ lvl.severity := by
  cases lvl <;> cases threshold <;> simp [LogLevel.toNat, LogLevel.severity]

/-- C1: every leveled log call (trace/debug/info/warn/error) delegates to
the single `log` method at its level, and a `log` call at level `lvl` on
an instance with effective threshold `inst.logLevel` is forwarded to the
bound implementation's log method exactly when `lvl` is at-or-above the
threshold in severity; when it is below, the call is the already-completed
no-op result and the implementation is not invoked. -/
theorem trace_debug_info_warn_error_forward_iff_at_or_above_threshold
    (inst : LoggerInst) (lvl : LogLevel) (message : String)
    (metadata : MetaArg) (error : Option ErrObj) :
    (DefaultLoggerInstance.trace inst message metadata error
        = DefaultLoggerInstance.log inst .TRACE message metadata error)
    ∧ (DefaultLoggerInstance.debug inst message metadata error
        = DefaultLoggerInstance.log inst .DEBUG message metadata error)
    ∧ (DefaultLoggerInstance.info inst message metadata error
        = DefaultLoggerInstance.log inst .INFO message metadata error)
    ∧ (DefaultLoggerInstance.warn inst message metadata error
        = DefaultLoggerInstance.log inst .WARN message metadata error)
    ∧ (DefaultLoggerInstance.error inst message metadata error
        = DefaultLoggerInstance.log inst .ERROR message metadata error)
    ∧ ((DefaultLoggerInstance.log inst lvl message metadata error).isForwarded = true
        ↔ inst.logLevel.severity ≤ lvl.severity)
    ∧ (DefaultLoggerInstance.log inst lvl message metadata error = .noop
        ↔ lvl.severity < inst.logLevel.severity) := by
  refine ⟨rfl, rfl, rfl, rfl, rfl, ?_, ?_⟩ <;>
    · unfold DefaultLoggerInstance.log
      rcases inst with ⟨i, nm, gp, T, impl, cm⟩
      cases T <;> cases lvl <;> cases metadata <;>
        simp [LogLevel.toNat, LogLevel.severity, LogResult.isForwarded]

/-- C2: a forwarded log call whose metadata argument is an `Error` uses it
as the error component and passes only (a copy of) the common metadata as
the bag; otherwise the metadata argument is spread over the instance's
common metadata (argument keys overriding common keys) and forwarded with
the level, group, name, message and the explicit error argument. -/
theorem forwarded_call_merges_metadata_and_extracts_error
    (inst : LoggerInst) (lvl : LogLevel) (message : String) (e : ErrObj)
    (m : MetaBag) (error : Option ErrObj)
    (h : inst.logLevel.severity ≤ lvl.severity) :
    (DefaultLoggerInstance.log inst lvl message (.err e) error
      = .forwarded inst.impl
          ⟨lvl, inst.group, inst.name, message, some e, spreadBags [] inst.commonMetadata⟩)
    ∧ (∀ k, bagGet (spreadBags [] inst.commonMetadata) k = bagGet inst.commonMetadata k)
    ∧ (DefaultLoggerInstance.log inst lvl message (.bag m) error
      = .forwarded inst.impl
          ⟨lvl, inst.group, inst.name, message, error, spreadBags inst.commonMetadata m⟩)
    ∧ (∀ k, bagGet (spreadBags inst.commonMetadata m) k =
        match bagGet m k with
        | some v => some v
        | none => bagGet inst.commonMetadata k) := by
  have hle : lvl.toNat ≤ inst.logLevel.toNat := (toNat_le_iff_severity_le lvl inst.logLevel).mpr h
  refine ⟨?_, ?_, ?_, fun k => bagGet_spreadBags inst.commonMetadata m k⟩
  · simp [DefaultLoggerInstance.log, hle]
  · intro k
    rfl
  · simp [DefaultLoggerInstance.log, hle, MetaArg.asBag]

/-- C2 witness: an instance at effective level INFO with common metadata
`{b: 2}` receives a `.warn` call with metadata `{a: 1}`; the merged bag
maps `a` to 1 and `b` to 2. -/
theorem forwarded_call_merges_metadata_witness :
    LogLevel.severity LogLevel.INFO ≤ LogLevel.severity LogLevel.WARN
    ∧ bagGet (spreadBags [("b", 2)] [("a", 1)]) "a" = some 1
    ∧ bagGet (spreadBags [("b", 2)] [("a", 1)]) "b" = some 2 := by
  have h := forwarded_call_merges_metadata_and_extracts_error
    ⟨0, "name", "group", .INFO, some 1, [("b", 2)]⟩ .WARN "x" ⟨"oops"⟩ [("a", 1)] none
    (by decide)
  exact ⟨by decide, by simpa using h.2.2.2 "a", by simpa using h.2.2.2 "b"⟩

@[simp]
theorem getLoggerCached_initialized (s : FactoryState) (g n : String) :
    ((s.getLoggerCached g n).2).initialized = s.initialized := by
  unfold FactoryState.getLoggerCached
  split <;> rfl

@[simp]
theorem getLoggerCached_initRuns (s : FactoryState) (g n : String) :
    ((s.getLoggerCached g n).2).initRuns = s.initRuns := by
  unfold FactoryState.getLoggerCached
  split <;> rfl

@[simp]
theorem getLoggerCached_discoveryRuns (s : FactoryState) (g n : String) :
    ((s.getLoggerCached g n).2).discoveryRuns = s.discoveryRuns := by
  unfold FactoryState.getLoggerCached
  split <;> rfl

@[simp]
theorem getLoggerCached_config (s : FactoryState) (g n : String) :
    ((s.getLoggerCached g n).2).config = s.config := by
  unfold FactoryState.getLoggerCached
  split <;> rfl

@[simp]
theorem getLoggerCached_bindings (s : FactoryState) (g n : String) :
    ((s.getLoggerCached g n).2).bindings = s.bindings := by
  unfold FactoryState.getLoggerCached
  split <;> rfl

@[simp]
theorem getLoggerCached_logger (s : FactoryState) (g n : String) :
    ((s.getLoggerCached g n).2).logger = s.logger := by
  unfold FactoryState.getLoggerCached
  split <;> rfl

@[simp]
theorem getLoggerCached_infoEmits (s : FactoryState) (g n : String) :
    ((s.getLoggerCached g n).2).infoEmits = s.infoEmits := by
  unfold FactoryState.getLoggerCached
  split <;> rfl

theorem getLoggerCached_cache_extends (s : FactoryState) (g n : String) :
    ∃ ext, ((s.getLoggerCached g n).2).cache = s.cache ++ ext := by
  unfold FactoryState.getLoggerCached
  split
  · exact ⟨[], by simp⟩
  · exact ⟨_, rfl⟩

theorem getLoggerCached_subs_extends (s : FactoryState) (g n : String) :
    ∃ ext, ((s.getLoggerCached g n).2).subs = s.subs ++ ext := by
  unfold FactoryState.getLoggerCached
  split
  · exact ⟨[], by simp⟩
  · exact ⟨_, rfl⟩

/-- After the cache-hit-or-construct body, the compound key always maps to
the returned instance. -/
theorem getLoggerCached_lookup (s : FactoryState) (g n : String) :
    assocGet ((s.getLoggerCached g n).2).cache (compoundKey g n)
      = some (s.getLoggerCached g n).1 := by
  cases h : assocGet s.cache (compoundKey g n) with
  | some i => simp [FactoryState.getLoggerCached, h]
  | none =>
    simp only [FactoryState.getLoggerCached, h]
    rw [assocGet_append_none _ h]
    simp [assocGet]

/-- A cache hit returns the cached instance and leaves the state unchanged. -/
theorem getLoggerCached_hit (s : FactoryState) (g n : String) (i : LoggerInst)
    (h : assocGet s.cache (compoundKey g n) = some i) :
    s.getLoggerCached g n = (i, s) := by
  simp [FactoryState.getLoggerCached, h]

@[simp]
theorem initStep_initialized (s : FactoryState) :
    ((FactoryState.initStep s).2).initialized = s.initialized := by
  unfold FactoryState.initStep
  split
  · rfl
  · split <;> simp

@[simp]
theorem initStep_config (s : FactoryState) :
    ((FactoryState.initStep s).2).config = s.config := by
  unfold FactoryState.initStep
  split
  · rfl
  · split <;> simp

@[simp]
theorem initStep_bindings (s : FactoryState) :
    ((FactoryState.initStep s).2).bindings = s.bindings := by
  unfold FactoryState.initStep
  split
  · rfl
  · split <;> simp

@[simp]
theorem initStep_discoveryRuns (s : FactoryState) :
    ((FactoryState.initStep s).2).discoveryRuns = s.discoveryRuns := by
  unfold FactoryState.initStep
  split
  · rfl
  · split <;> simp

@[simp]
theorem initStep_initRuns (s : FactoryState) :
    ((FactoryState.initStep s).2).initRuns = s.initRuns + 1 := by
  unfold FactoryState.initStep
  split
  · rfl
  · split <;> simp

theorem initStep_cache_extends (s : FactoryState) :
    ∃ ext, ((FactoryState.initStep s).2).cache = s.cache ++ ext := by
  unfold FactoryState.initStep
  split
  · exact ⟨[], by simp⟩
  · obtain ⟨ext, he⟩ := getLoggerCached_cache_extends
      { s with initRuns := s.initRuns + 1, logger := some _ } "" ""
    split <;> exact ⟨ext, by simpa using he⟩

theorem initStep_subs_extends (s : FactoryState) :
    ∃ ext, ((FactoryState.initStep s).2).subs = s.subs ++ ext := by
  unfold FactoryState.initStep
  split
  · exact ⟨[], by simp⟩
  · obtain ⟨ext, he⟩ := getLoggerCached_subs_extends
      { s with initRuns := s.initRuns + 1, logger := some _ } "" ""
    split <;> exact ⟨ext, by simpa using he⟩

theorem getLogger_cache_extends (s : FactoryState) (g n : String) :
    ∃ ext, ((s.getLogger g n).2).cache = s.cache ++ ext := by
  unfold FactoryState.getLogger
  dsimp only []
  split
  · exact getLoggerCached_cache_extends s g n
  · obtain ⟨ext1, he1⟩ := initStep_cache_extends { s with initialized := true }
    split
    · exact ⟨ext1, by simpa using he1⟩
    · obtain ⟨ext2, he2⟩ := getLoggerCached_cache_extends
        (FactoryState.initStep { s with initialized := true }).2 g n
      exact ⟨ext1 ++ ext2, by simp [he2, he1, List.append_assoc]⟩

theorem getLogger_subs_extends (s : FactoryState) (g n : String) :
    ∃ ext, ((s.getLogger g n).2).subs = s.subs ++ ext := by
  unfold FactoryState.getLogger
  dsimp only []
  split
  · exact getLoggerCached_subs_extends s g n
  · obtain ⟨ext1, he1⟩ := initStep_subs_extends { s with initialized := true }
    split
    · exact ⟨ext1, by simpa using he1⟩
    · obtain ⟨ext2, he2⟩ := getLoggerCached_subs_extends
        (FactoryState.initStep { s with initialized := true }).2 g n
      exact ⟨ext1 ++ ext2, by simp [he2, he1, List.append_assoc]⟩

/-- A successful `getLogger` leaves the factory initialized with the
returned instance cached under the requested compound key. -/
theorem getLogger_ok_state (s : FactoryState) (g n : String) (i : LoggerInst)
    (s' : FactoryState) (h : s.getLogger g n = (.ok i, s')) :
    s'.initialized = true ∧ assocGet s'.cache (compoundKey g n) = some i := by
  unfold FactoryState.getLogger at h
  dsimp only [] at h
  split at h
  · rename_i hinit
    rw [Prod.mk.injEq] at h
    obtain ⟨h1, h2⟩ := h
    rw [Except.ok.injEq] at h1
    refine ⟨?_, ?_⟩
    · rw [← h2]
      simp [hinit]
    · rw [← h2, ← h1]
      exact getLoggerCached_lookup s g n
  · split at h
    · rw [Prod.mk.injEq] at h
      exact absurd h.1 (by simp)
    · rw [Prod.mk.injEq] at h
      obtain ⟨h1, h2⟩ := h
      rw [Except.ok.injEq] at h1
      refine ⟨?_, ?_⟩
      · rw [← h2]
        simp
      · rw [← h2, ← h1]
        exact getLoggerCached_lookup _ g n

@[simp]
theorem applyLevelEvent_fst (subs : List Subscription) (level : LogLevel) (sel : Selector)
    (p : String × LoggerInst) : (applyLevelEvent subs level sel p).1 = p.1 := by
  unfold applyLevelEvent
  split <;> rfl

@[simp]
theorem applyLevelEvent_id (subs : List Subscription) (level : LogLevel) (sel : Selector)
    (p : String × LoggerInst) : (applyLevelEvent subs level sel p).2.id = p.2.id := by
  unfold applyLevelEvent
  split <;> rfl

@[simp]
theorem applyLevelEvent_group (subs : List Subscription) (level : LogLevel) (sel : Selector)
    (p : String × LoggerInst) : (applyLevelEvent subs level sel p).2.group = p.2.group := by
  unfold applyLevelEvent
  split <;> rfl

@[simp]
theorem applyLevelEvent_name (subs : List Subscription) (level : LogLevel) (sel : Selector)
    (p : String × LoggerInst) : (applyLevelEvent subs level sel p).2.name = p.2.name := by
  unfold applyLevelEvent
  split <;> rfl

theorem applyLevelEvent_snd_congr (subs : List Subscription) (level : LogLevel) (sel : Selector)
    {p q : String × LoggerInst} (h : p.2 = q.2) :
    (applyLevelEvent subs level sel p).2 = (applyLevelEvent subs level sel q).2 := by
  unfold applyLevelEvent
  rw [h]
  split <;> simp [h]

theorem invC_getLoggerCached (s : FactoryState) (g n : String) (h : Inv s) :
    Inv (s.getLoggerCached g n).2 := by
  unfold FactoryState.getLoggerCached
  cases hc : assocGet s.cache (compoundKey g n) with
  | some i => simpa only [hc] using h
  | none =>
    obtain ⟨hkeys, hids, hsubs⟩ := h
    simp only [hc]
    refine ⟨?_, ?_, ?_⟩
    · intro k i j hi hj
      rcases List.mem_append.mp hi with hi | hi <;>
        rcases List.mem_append.mp hj with hj | hj
      · exact hkeys k i j hi hj
      · rw [List.mem_singleton, Prod.mk.injEq] at hj
        exact absurd (hj.1 ▸ hi) (not_mem_of_assocGet_none hc i)
      · rw [List.mem_singleton, Prod.mk.injEq] at hi
        exact absurd (hi.1 ▸ hj) (not_mem_of_assocGet_none hc j)
      · rw [List.mem_singleton, Prod.mk.injEq] at hi hj
        rw [hi.2, hj.2]
    · intro p hp
      rcases List.mem_append.mp hp with hp | hp
      · exact Nat.lt_succ_of_lt (hids p hp)
      · rw [List.mem_singleton] at hp
        rw [hp]
        exact Nat.lt_succ_self _
    · intro p hp
      rcases List.mem_append.mp hp with hp | hp
      · obtain ⟨h1, h2, h3⟩ := hsubs p hp
        exact ⟨List.mem_append_left _ h1, List.mem_append_left _ h2, List.mem_append_left _ h3⟩
      · rw [List.mem_singleton] at hp
        rw [hp]
        refine ⟨List.mem_append_right _ ?_, List.mem_append_right _ ?_,
          List.mem_append_right _ ?_⟩ <;> simp

theorem inv_initStep (s : FactoryState) (h : Inv s) : Inv (FactoryState.initStep s).2 := by
  unfold FactoryState.initStep
  dsimp only []
  split
  · exact h
  · split
    · exact invC_getLoggerCached _ "" "" h
    · exact invC_getLoggerCached _ "" "" h

theorem inv_getLogger (s : FactoryState) (g n : String) (h : Inv s) :
    Inv ((s.getLogger g n).2) := by
  unfold FactoryState.getLogger
  dsimp only []
  split
  · exact invC_getLoggerCached s g n h
  · split
    · exact inv_initStep _ h
    · exact invC_getLoggerCached _ g n (inv_initStep _ h)

theorem inv_reset (s : FactoryState) (b : Bool) : Inv (s.reset b) := by
  unfold FactoryState.reset
  dsimp only []
  have hempty : InvC ([] : List (String × LoggerInst)) s.nextId s.subs :=
    ⟨fun k i j hi => absurd hi (List.not_mem_nil _),
     fun p hp => absurd hp (List.not_mem_nil _),
     fun p hp => absurd hp (List.not_mem_nil _)⟩
  split <;> exact hempty

theorem inv_setLogLevel (s : FactoryState) (level : LogLevel) (sel : Selector)
    (h : Inv s) : Inv (s.setLogLevel level sel) := by
  obtain ⟨hkeys, hids, hsubs⟩ := h
  unfold FactoryState.setLogLevel
  refine ⟨?_, ?_, ?_⟩
  · intro k i j hi hj
    obtain ⟨p, hpmem, hfp⟩ := List.mem_map.mp hi
    obtain ⟨q, hqmem, hfq⟩ := List.mem_map.mp hj
    have hp1 : p.1 = k := by
      rw [← applyLevelEvent_fst s.subs level sel p, hfp]
    have hq1 : q.1 = k := by
      rw [← applyLevelEvent_fst s.subs level sel q, hfq]
    have hp' : (k, p.2) ∈ s.cache := by
      rw [← hp1]
      simpa using hpmem
    have hq' : (k, q.2) ∈ s.cache := by
      rw [← hq1]
      simpa using hqmem
    have hpq : p.2 = q.2 := hkeys k p.2 q.2 hp' hq'
    have : (applyLevelEvent s.subs level sel p).2 = (applyLevelEvent s.subs level sel q).2 :=
      applyLevelEvent_snd_congr s.subs level sel hpq
    rw [hfp, hfq] at this
    exact this
  · intro p hp
    obtain ⟨q, hqmem, hfq⟩ := List.mem_map.mp hp
    have : p.2.id = q.2.id := by
      rw [← hfq]
      exact applyLevelEvent_id s.subs level sel q
    rw [this]
    exact hids q hqmem
  · intro p hp
    obtain ⟨q, hqmem, hfq⟩ := List.mem_map.mp hp
    have hid : p.2.id = q.2.id := by
      rw [← hfq]
      exact applyLevelEvent_id s.subs level sel q
    have hgp : p.2.group = q.2.group := by
      rw [← hfq]
      exact applyLevelEvent_group s.subs level sel q
    have hnm : p.2.name = q.2.name := by
      rw [← hfq]
      exact applyLevelEvent_name s.subs level sel q
    rw [hid, hgp, hnm]
    exact hsubs q hqmem

/-- Every reachable factory state satisfies the cache/identity/subscription
invariant. -/
theorem reachable_inv (s : FactoryState) (h : Reachable s) : Inv s := by
  induction h with
  | load discovered =>
    exact ⟨fun k i j hi => absurd hi (List.not_mem_nil _),
      fun p hp => absurd hp (List.not_mem_nil _),
      fun p hp => absurd hp (List.not_mem_nil _)⟩
  | get s g n _ ih => exact inv_getLogger s g n ih
  | reset s b _ ih => exact inv_reset s b
  | setLevel s level sel _ ih => exact inv_setLogLevel s level sel ih

theorem eq_empty_of_length_zero (a : String) (h : a.length = 0) : a = "" := by
  cases a with
  | mk d =>
    simp [String.length] at h
    simp [h]

/-- The compound key `":"` can only come from the empty group and name. -/
theorem compoundKey_colon (g n : String) (h : compoundKey g n = ":") :
    g = "" ∧ n = "" := by
  have hl : (compoundKey g n).length = (":" : String).length := by rw [h]
  have hone : (":" : String).length = 1 := by decide
  rw [compoundKey, String.length_append, String.length_append, hone] at hl
  exact ⟨eq_empty_of_length_zero g (by omega), eq_empty_of_length_zero n (by omega)⟩

/-- A cache miss constructs the instance from the requested group and
name, the configuration-resolved level, the active implementation and a
fresh identity. -/
theorem getLoggerCached_miss (s : FactoryState) (g n : String)
    (h : assocGet s.cache (compoundKey g n) = none) :
    s.getLoggerCached g n =
      (⟨s.nextId, n, g, s.config.getLogLevel g n, s.logger, []⟩,
        { s with
            cache := s.cache ++
              [(compoundKey g n, ⟨s.nextId, n, g, s.config.getLogLevel g n, s.logger, []⟩)]
            subs := s.subs ++
              [⟨.exact g n, s.nextId⟩, ⟨.group g, s.nextId⟩, ⟨.global, s.nextId⟩]
            nextId := s.nextId + 1 }) := by
  simp [FactoryState.getLoggerCached, h]

theorem initStep_err (s : FactoryState) (h : s.bindings = []) :
    FactoryState.initStep s = (.error "No Logger Binding found", { s with initRuns := s.initRuns + 1 }) := by
  unfold FactoryState.initStep
  simp [h]

/-- Initialization from an empty cache with at least one discovered
binding: it succeeds, caches the root logger under the key `":"` with a
fresh identity, and advances the identity allocator once. -/
theorem initStep_ok_fields (s : FactoryState) (b : Binding) (rest : List Binding)
    (hbs : s.bindings = b :: rest) (hc : s.cache = []) :
    (FactoryState.initStep s).1 = .ok ()
    ∧ (FactoryState.initStep s).2.cache =
        [(compoundKey "" "", ⟨s.nextId, "", "", s.config.getLogLevel "" "", some b.implId, []⟩)]
    ∧ (FactoryState.initStep s).2.nextId = s.nextId + 1 := by
  have hnone : assocGet
      ({ s with initRuns := s.initRuns + 1, logger := some b.implId } : FactoryState).cache
      (compoundKey "" "") = none := by
    simp [hc, assocGet]
  have hhead : s.bindings.head? = some b := by
    rw [hbs]
    rfl
  unfold FactoryState.initStep
  dsimp only []
  rw [hhead]
  dsimp only []
  rw [getLoggerCached_miss _ "" "" hnone]
  dsimp only []
  split <;> simp [hc]

theorem reset_cache (s : FactoryState) (b : Bool) : (s.reset b).cache = [] := by
  unfold FactoryState.reset
  dsimp only []
  split <;> rfl

theorem reset_config (s : FactoryState) (b : Bool) : (s.reset b).config = s.config := by
  unfold FactoryState.reset
  dsimp only []
  split <;> rfl

theorem reset_nextId (s : FactoryState) (b : Bool) : (s.reset b).nextId = s.nextId := by
  unfold FactoryState.reset
  dsimp only []
  split <;> rfl

/-- A `getLogger` call on a state with an empty cache constructs a fresh
instance (its identity is at or past the allocator) whose level is
resolved from the current configuration. -/
theorem getLogger_fresh (s : FactoryState) (g n : String) (i : LoggerInst)
    (s' : FactoryState) (hc : s.cache = []) (h : s.getLogger g n = (.ok i, s')) :
    s.nextId ≤ i.id ∧ i.logLevel = s.config.getLogLevel g n := by
  have hnone : assocGet s.cache (compoundKey g n) = none := by
    rw [hc]
    rfl
  unfold FactoryState.getLogger at h
  dsimp only [] at h
  split at h
  · rw [getLoggerCached_miss s g n hnone] at h
    rw [Prod.mk.injEq, Except.ok.injEq] at h
    rw [← h.1]
    exact ⟨Nat.le_refl _, rfl⟩
  · cases hbs : s.bindings with
    | nil =>
      rw [initStep_err { s with initialized := true } (by simpa using hbs)] at h
      simp at h
    | cons b rest =>
      obtain ⟨hok, hcache, hnext⟩ :=
        initStep_ok_fields { s with initialized := true } b rest (by simpa using hbs)
          (by simpa using hc)
      rw [hok] at h
      dsimp only [] at h
      by_cases hkey : compoundKey "" "" = compoundKey g n
      · have hhit : assocGet
            ((FactoryState.initStep { s with initialized := true }).2).cache
            (compoundKey g n)
            = some ⟨s.nextId, "", "", s.config.getLogLevel "" "", some b.implId, []⟩ := by
          rw [hcache]
          simp [assocGet, hkey]
        rw [getLoggerCached_hit _ g n _ hhit] at h
        rw [Prod.mk.injEq, Except.ok.injEq] at h
        obtain ⟨hg, hn⟩ := compoundKey_colon g n (by rw [← hkey]; rfl)
        rw [← h.1, hg, hn]
        exact ⟨Nat.le_refl _, rfl⟩
      · have hmiss : assocGet
            ((FactoryState.initStep { s with initialized := true }).2).cache
            (compoundKey g n) = none := by
          rw [hcache]
          simp [assocGet, hkey]
        rw [getLoggerCached_miss _ g n hmiss] at h
        rw [Prod.mk.injEq, Except.ok.injEq] at h
        rw [← h.1]
        constructor
        · rw [hnext]
          exact Nat.le_succ _
        · have : ((FactoryState.initStep { s with initialized := true }).2).config = s.config := by
            rw [initStep_config]

          rw [this]

/-- A successful `getLogger` call followed by the same call returns the
identical instance and leaves the state untouched. -/
theorem getLogger_repeat (s : FactoryState) (g n : String) (i : LoggerInst)
    (s' : FactoryState) (h : s.getLogger g n = (.ok i, s')) :
    s'.getLogger g n = (.ok i, s') := by
  obtain ⟨hinit, hget⟩ := getLogger_ok_state s g n i s' h
  unfold FactoryState.getLogger
  rw [if_pos hinit]
  dsimp only []
  rw [getLoggerCached_hit s' g n i hget]

/-- Lookup after a level-change event: every cached entry keeps its key,
and its instance is updated exactly when it subscribed at the event's
selector. -/
theorem assocGet_map_applyLevelEvent (subs : List Subscription) (level : LogLevel)
    (sel : Selector) (l : List (String × LoggerInst)) (k : String) :
    assocGet (l.map (applyLevelEvent subs level sel)) k
      = (assocGet l k).map fun i => (applyLevelEvent subs level sel (k, i)).2 := by
  induction l with
  | nil => rfl
  | cons p rest ih =>
    by_cases hk : p.1 = k
    · have hfst : (applyLevelEvent subs level sel p).1 = k := by rw [applyLevelEvent_fst, hk]
      have hsnd : (applyLevelEvent subs level sel p).2
          = (applyLevelEvent subs level sel (k, p.2)).2 :=
        applyLevelEvent_snd_congr subs level sel rfl
      simp [assocGet, hfst, hk, hsnd]
    · have hfst : (applyLevelEvent subs level sel p).1 ≠ k := by
        rw [applyLevelEvent_fst]
        exact hk
      simp [assocGet, hfst, hk, ih]

/-- C3: a successful `getLogger (group, name)` call repeated returns the
identical instance without changing the state; other `getLogger` calls
keep every existing cache binding untouched and `setLogLevel` keeps every
cache key bound to the instance with the same identity (so the caller
keeps receiving the same object until `reset`); in every reachable state
the cache holds at most one instance per key; and after `reset` the next
`getLogger` constructs a fresh instance (an identity no pre-reset cached
instance has) with its level freshly resolved from the configuration. -/
theorem getLogger_returns_identical_cached_instance_until_reset :
    (∀ (s : FactoryState) (g n : String) (i : LoggerInst) (s' : FactoryState),
        s.getLogger g n = (.ok i, s') → s'.getLogger g n = (.ok i, s'))
    ∧ (∀ (s : FactoryState) (g2 n2 k : String) (i : LoggerInst),
        assocGet s.cache k = some i →
        assocGet ((s.getLogger g2 n2).2).cache k = some i)
    ∧ (∀ (s : FactoryState) (level : LogLevel) (sel : Selector) (k : String) (i : LoggerInst),
        assocGet s.cache k = some i →
        ∃ j, assocGet ((s.setLogLevel level sel).cache) k = some j ∧ j.id = i.id)
    ∧ (∀ (s : FactoryState), Reachable s →
        ∀ (k : String) (i j : LoggerInst), (k, i) ∈ s.cache → (k, j) ∈ s.cache → i = j)
    ∧ (∀ (s : FactoryState) (b : Bool) (g n : String) (i : LoggerInst) (s' : FactoryState),
        Reachable s → (s.reset b).getLogger g n = (.ok i, s') →
        i.logLevel = s.config.getLogLevel g n ∧ ∀ p ∈ s.cache, p.2.id ≠ i.id) := by
  refine ⟨getLogger_repeat, ?_, ?_, ?_, ?_⟩
  · intro s g2 n2 k i h
    obtain ⟨ext, he⟩ := getLogger_cache_extends s g2 n2
    rw [he]
    exact assocGet_append_some _ h
  · intro s level sel k i h
    refine ⟨(applyLevelEvent s.subs level sel (k, i)).2, ?_,
      applyLevelEvent_id s.subs level sel (k, i)⟩
    show assocGet (s.cache.map (applyLevelEvent s.subs level sel)) k = _
    rw [assocGet_map_applyLevelEvent, h]
    rfl
  · intro s hreach
    exact (reachable_inv s hreach).1
  · intro s b g n i s' hreach h
    have h1 := getLogger_fresh (s.reset b) g n i s' (reset_cache s b) h
    constructor
    · rw [← reset_config s b]
      exact h1.2
    · intro p hp
      have hlt : p.2.id < s.nextId := (reachable_inv s hreach).2.1 p hp
      have hfresh : s.nextId ≤ i.id := by
        rw [← reset_nextId s b]
        exact h1.1
      omega

/-- C3 witness: a concrete repeat — the second `getLogger` for the same
pair returns the instance of the first call and leaves the state as it
was. -/
theorem getLogger_repeat_witness :
    (moduleLoad [⟨"vendor", "1.0.0", 7⟩]).getLogger "grp" "nm"
      = (.ok ⟨1, "nm", "grp", .INFO, some 7, []⟩,
          ((moduleLoad [⟨"vendor", "1.0.0", 7⟩]).getLogger "grp" "nm").2)
    ∧ (((moduleLoad [⟨"vendor", "1.0.0", 7⟩]).getLogger "grp" "nm").2.getLogger "grp" "nm"
      = (.ok ⟨1, "nm", "grp", .INFO, some 7, []⟩,
          ((moduleLoad [⟨"vendor", "1.0.0", 7⟩]).getLogger "grp" "nm").2)) := by
  have h1 : (moduleLoad [⟨"vendor", "1.0.0", 7⟩]).getLogger "grp" "nm"
      = (.ok ⟨1, "nm", "grp", .INFO, some 7, []⟩,
          ((moduleLoad [⟨"vendor", "1.0.0", 7⟩]).getLogger "grp" "nm").2) := by
    rfl
  exact ⟨h1,
    getLogger_returns_identical_cached_instance_until_reset.1 _ "grp" "nm" _ _ h1⟩

/-- C4: with zero discovered bindings, the first `getLogger` call fails
with the configuration error "No Logger Binding found" raised during
one-time initialization, and no logger instance is constructed by that
call: the cache stays empty and the identity allocator untouched, while
the initialized flag was set before the throw. -/
theorem first_getLogger_fails_when_no_binding (g n : String) :
    (moduleLoad []).getLogger g n
      = (.error "No Logger Binding found",
          { moduleLoad [] with initialized := true, initRuns := 1 })
    ∧ ((moduleLoad []).getLogger g n).2.cache = []
    ∧ ((moduleLoad []).getLogger g n).2.nextId = 0 :=
  ⟨rfl, rfl, rfl⟩

/-- C5: in every reachable state, every cached instance holds the three
subscriptions its constructor registered (exact key, group, global); after
`setLogLevel` at a group, every already-constructed instance under that
group (in particular every one lacking a more specific name-level
override) has its effective level set to the new level; after a global
`setLogLevel`, every instance (in particular every one lacking group or
name overrides) has its effective level set to the new level. -/
theorem instances_subscribe_and_group_global_overrides_apply :
    (∀ s, Reachable s → ∀ p ∈ s.cache,
        (⟨.exact p.2.group p.2.name, p.2.id⟩ : Subscription) ∈ s.subs
        ∧ (⟨.group p.2.group, p.2.id⟩ : Subscription) ∈ s.subs
        ∧ (⟨.global, p.2.id⟩ : Subscription) ∈ s.subs)
    ∧ (∀ s level g, Reachable s → ∀ p ∈ s.cache, p.2.group = g →
        assocGet s.config.exactLevels (g, p.2.name) = none →
        (p.1, { p.2 with logLevel := level }) ∈ (s.setLogLevel level (.group g)).cache)
    ∧ (∀ s level, Reachable s → ∀ p ∈ s.cache,
        assocGet s.config.exactLevels (p.2.group, p.2.name) = none →
        assocGet s.config.groupLevels p.2.group = none →
        (p.1, { p.2 with logLevel := level }) ∈ (s.setLogLevel level .global).cache) := by
  refine ⟨fun s h => (reachable_inv s h).2.2, ?_, ?_⟩
  · intro s level g hreach p hp hpg hnone
    have hsub : (⟨.group g, p.2.id⟩ : Subscription) ∈ s.subs := by
      have hs := ((reachable_inv s hreach).2.2 p hp).2.1
      rw [hpg] at hs
      exact hs
    have happ : applyLevelEvent s.subs level (.group g) p
        = (p.1, { p.2 with logLevel := level }) := by
      unfold applyLevelEvent
      rw [if_pos hsub]
    show _ ∈ s.cache.map (applyLevelEvent s.subs level (.group g))
    rw [← happ]
    exact List.mem_map_of_mem _ hp
  · intro s level hreach p hp hnone1 hnone2
    have hsub : (⟨.global, p.2.id⟩ : Subscription) ∈ s.subs :=
      ((reachable_inv s hreach).2.2 p hp).2.2
    have happ : applyLevelEvent s.subs level .global p
        = (p.1, { p.2 with logLevel := level }) := by
      unfold applyLevelEvent
      rw [if_pos hsub]
    show _ ∈ s.cache.map (applyLevelEvent s.subs level .global)
    rw [← happ]
    exact List.mem_map_of_mem _ hp

/-- C5 witness: a concrete group-level override after construction — the
cached instance for ("grp", "nm") has its effective level set to WARN by
`setLogLevel WARN` at group "grp". -/
theorem group_override_applies_witness :
    (compoundKey "grp" "nm", (⟨1, "nm", "grp", .WARN, some 7, []⟩ : LoggerInst))
      ∈ ((((moduleLoad [⟨"vendor", "1.0.0", 7⟩]).getLogger "grp" "nm").2).setLogLevel
          .WARN (.group "grp")).cache := by
  have happly := instances_subscribe_and_group_global_overrides_apply.2.1
    (((moduleLoad [⟨"vendor", "1.0.0", 7⟩]).getLogger "grp" "nm").2) .WARN "grp"
    (Reachable.get _ "grp" "nm" (Reachable.load _))
    (compoundKey "grp" "nm", ⟨1, "nm", "grp", .INFO, some 7, []⟩)
    (by decide) (by decide) (by decide)
  exact happly

theorem reset_bindings (s : FactoryState) (b : Bool) : (s.reset b).bindings = s.bindings := by
  unfold FactoryState.reset
  dsimp only []
  split <;> rfl

theorem reset_initRuns (s : FactoryState) (b : Bool) : (s.reset b).initRuns = s.initRuns := by
  unfold FactoryState.reset
  dsimp only []
  split <;> rfl

theorem reset_discoveryRuns (s : FactoryState) (b : Bool) :
    (s.reset b).discoveryRuns = s.discoveryRuns := by
  unfold FactoryState.reset
  dsimp only []
  split <;> rfl

theorem reset_true_initialized (s : FactoryState) : (s.reset true).initialized = false := by
  rfl

theorem reset_false_initialized (s : FactoryState) :
    (s.reset false).initialized = s.initialized := by
  rfl

theorem initStep_ok (s : FactoryState) (h : s.bindings ≠ []) :
    (FactoryState.initStep s).1 = .ok () := by
  unfold FactoryState.initStep
  dsimp only []
  cases hbs : s.bindings with
  | nil => exact absurd hbs h
  | cons b rest =>
    dsimp only [List.head?]
    split <;> rfl

theorem initStep_logger_ok (s : FactoryState) (b : Binding) (rest : List Binding)
    (hbs : s.bindings = b :: rest) :
    (FactoryState.initStep s).2.logger = some b.implId := by
  unfold FactoryState.initStep
  dsimp only []
  have hhead : s.bindings.head? = some b := by
    rw [hbs]
    rfl
  rw [hhead]
  dsimp only []
  split <;> simp

/-- Initialization from an empty cache with more than one discovered
binding additionally emits exactly one informational message through the
root logger — group and name both empty — carrying the multiple-bindings
message. -/
theorem initStep_multi_infoEmits (s : FactoryState) (b1 b2 : Binding) (rest : List Binding)
    (hbs : s.bindings = b1 :: b2 :: rest) (hc : s.cache = []) :
    (FactoryState.initStep s).2.infoEmits
      = s.infoEmits ++ [("", "", multipleBindingsMessage s.bindings b1)] := by
  have hnone : assocGet
      ({ s with initRuns := s.initRuns + 1, logger := some b1.implId } : FactoryState).cache
      (compoundKey "" "") = none := by
    simp [hc, assocGet]
  have hhead : s.bindings.head? = some b1 := by
    rw [hbs]
    rfl
  have hlen : s.bindings.length > 1 := by
    rw [hbs]
    simp
  unfold FactoryState.initStep
  dsimp only []
  rw [hhead]
  dsimp only []
  rw [getLoggerCached_miss _ "" "" hnone]
  dsimp only []
  rw [if_pos hlen]

theorem getLogger_infoEmits_of_init (s : FactoryState) (g n : String)
    (h : s.initialized = true) :
    ((s.getLogger g n).2).infoEmits = s.infoEmits := by
  unfold FactoryState.getLogger
  dsimp only []
  rw [if_pos h]
  exact getLoggerCached_infoEmits s g n

theorem getLogger_infoEmits_of_uninit (s : FactoryState) (g n : String)
    (h : s.initialized = false) :
    ((s.getLogger g n).2).infoEmits
      = ((FactoryState.initStep { s with initialized := true }).2).infoEmits := by
  unfold FactoryState.getLogger
  dsimp only []
  rw [if_neg (by simp [h])]
  split
  · rfl
  · exact getLoggerCached_infoEmits _ g n

theorem getLogger_logger_of_uninit (s : FactoryState) (g n : String)
    (h : s.initialized = false) :
    ((s.getLogger g n).2).logger
      = ((FactoryState.initStep { s with initialized := true }).2).logger := by
  unfold FactoryState.getLogger
  dsimp only []
  rw [if_neg (by simp [h])]
  split
  · rfl
  · exact getLoggerCached_logger _ g n

theorem getLogger_initRuns_of_uninit (s : FactoryState) (g n : String)
    (h : s.initialized = false) :
    ((s.getLogger g n).2).initRuns = s.initRuns + 1 := by
  unfold FactoryState.getLogger
  dsimp only []
  rw [if_neg (by simp [h])]
  split
  · rw [initStep_initRuns]
  · rw [getLoggerCached_initRuns, initStep_initRuns]

theorem getLogger_discoveryRuns (s : FactoryState) (g n : String) :
    ((s.getLogger g n).2).discoveryRuns = s.discoveryRuns := by
  unfold FactoryState.getLogger
  dsimp only []
  split
  · exact getLoggerCached_discoveryRuns s g n
  · split
    · rw [initStep_discoveryRuns]
    · rw [getLoggerCached_discoveryRuns, initStep_discoveryRuns]

theorem getLogger_initialized (s : FactoryState) (g n : String) :
    ((s.getLogger g n).2).initialized = true := by
  unfold FactoryState.getLogger
  dsimp only []
  split
  · rename_i h
    rw [getLoggerCached_initialized]
    exact h
  · split
    · rw [initStep_initialized]
    · rw [getLoggerCached_initialized, initStep_initialized]

theorem getLogger_ok_of_bindings_ne_nil (s : FactoryState) (g n : String)
    (h : s.bindings ≠ []) :
    ∃ i s', s.getLogger g n = (.ok i, s') := by
  unfold FactoryState.getLogger
  dsimp only []
  split
  · exact ⟨_, _, rfl⟩
  · have hok : (FactoryState.initStep { s with initialized := true }).1 = .ok () :=
      initStep_ok _ (by simpa using h)
    rw [hok]
    exact ⟨_, _, rfl⟩

theorem foldl_bindingLines_extends (l : List Binding) :
    ∀ acc : String, ∃ t, l.foldl (fun m b => m ++ bindingLine b) acc = acc ++ t := by
  induction l with
  | nil =>
    intro acc
    exact ⟨"", by simp⟩
  | cons b rest ih =>
    intro acc
    obtain ⟨t, ht⟩ := ih (acc ++ bindingLine b)
    exact ⟨bindingLine b ++ t, by rw [List.foldl_cons, ht, String.append_assoc]⟩

theorem mem_foldl_bindingLines (l : List Binding) (b : Binding) :
    ∀ acc : String, b ∈ l → ∃ pre post,
      l.foldl (fun m x => m ++ bindingLine x) acc = pre ++ bindingLine b ++ post := by
  induction l with
  | nil =>
    intro acc hb
    exact absurd hb (List.not_mem_nil b)
  | cons x rest ih =>
    intro acc hb
    rcases List.mem_cons.mp hb with hx | hx
    · obtain ⟨t, ht⟩ := foldl_bindingLines_extends rest (acc ++ bindingLine x)
      rw [← hx] at ht
      exact ⟨acc, t, by rw [List.foldl_cons, ← hx, ht, String.append_assoc]⟩
    · obtain ⟨pre, post, hp⟩ := ih (acc ++ bindingLine x) hx
      exact ⟨pre, post, by rw [List.foldl_cons, hp]⟩

/-- The multiple-bindings message contains one line for every discovered
binding's vendor and version. -/
theorem multipleBindingsMessage_lists_all (bindings : List Binding) (selected b : Binding)
    (hb : b ∈ bindings) :
    ∃ pre post, multipleBindingsMessage bindings selected = pre ++ bindingLine b ++ post := by
  obtain ⟨pre, post, hp⟩ := mem_foldl_bindingLines bindings b "multiple bindings found:" hb
  unfold multipleBindingsMessage
  rw [hp]
  exact ⟨pre,
    post ++ "\n  using " ++ selected.vendor ++ " - " ++ selected.version,
    by simp [String.append_assoc]⟩

/-- The multiple-bindings message ends by naming the selected binding. -/
theorem multipleBindingsMessage_names_selected (bindings : List Binding) (selected : Binding) :
    ∃ pre, multipleBindingsMessage bindings selected
      = pre ++ ("\n  using " ++ selected.vendor ++ " - " ++ selected.version) := by
  unfold multipleBindingsMessage
  exact ⟨bindings.foldl (fun m b => m ++ bindingLine b) "multiple bindings found:",
    by simp [String.append_assoc]⟩

/-- C10: when the metadata argument is an `Error` and an explicit error
argument is also supplied, the implementation receives the metadata
`Error` in the error position and the explicit error argument is
discarded — the outcome is identical to the call without it, and the
explicit error appears in neither the error position nor the bag. -/
theorem explicit_error_discarded_when_metadata_is_error
    (inst : LoggerInst) (lvl : LogLevel) (message : String) (e e2 : ErrObj)
    (h : inst.logLevel.severity ≤ lvl.severity) :
    (DefaultLoggerInstance.log inst lvl message (.err e) (some e2)
      = .forwarded inst.impl
          ⟨lvl, inst.group, inst.name, message, some e, spreadBags [] inst.commonMetadata⟩)
    ∧ (DefaultLoggerInstance.log inst lvl message (.err e) (some e2)
      = DefaultLoggerInstance.log inst lvl message (.err e) none) := by
  have hle : lvl.toNat ≤ inst.logLevel.toNat := (toNat_le_iff_severity_le lvl inst.logLevel).mpr h
  constructor <;> simp [DefaultLoggerInstance.log, hle]

/-- C10 witness: a `.warn` call at threshold INFO with an `Error` metadata
argument and a distinct explicit error argument. -/
theorem explicit_error_discarded_witness :
    LogLevel.severity LogLevel.INFO ≤ LogLevel.severity LogLevel.WARN
    ∧ DefaultLoggerInstance.log ⟨0, "name", "group", .INFO, some 1, []⟩ .WARN "x"
        (.err ⟨"metadata error"⟩) (some ⟨"explicit error"⟩)
      = .forwarded (some 1) ⟨.WARN, "group", "name", "x", some ⟨"metadata error"⟩, spreadBags [] []⟩ :=
  ⟨by decide,
   (explicit_error_discarded_when_metadata_is_error
      ⟨0, "name", "group", .INFO, some 1, []⟩ .WARN "x"
      ⟨"metadata error"⟩ ⟨"explicit error"⟩ (by decide)).1⟩

/-- C6 counterexample: one binding is discovered at module load; after a
first `getLogger`, a `reset true` and a second `getLogger`, the claim
says binding discovery was re-run — but `BINDINGS` is a module-load
constant, so discovery has still run exactly once, while initialization
(which the reset flag does force) has run twice. -/
theorem reset_binding_does_not_rerun_discovery_counterexample :
    ((((moduleLoad [⟨"vendor", "1.0.0", 7⟩]).getLogger "" "").2.reset true).getLogger
        "" "").2.discoveryRuns = 1
    ∧ ¬ ((((moduleLoad [⟨"vendor", "1.0.0", 7⟩]).getLogger "" "").2.reset true).getLogger
        "" "").2.discoveryRuns = 2
    ∧ ((((moduleLoad [⟨"vendor", "1.0.0", 7⟩]).getLogger "" "").2.reset true).getLogger
        "" "").2.initRuns = 2 :=
  ⟨rfl, by decide, rfl⟩

/-- C6 amended: `reset(resetBinding)` always clears the instance cache;
when `resetBinding` is true it clears the initialized flag, so the next
`getLogger` access re-runs initialization — re-selecting the first
already-discovered binding and re-creating its implementation — but
binding discovery itself is not re-run: the discovered list is fixed at
module load. -/
theorem reset_clears_cache_and_reruns_initialization
    (s : FactoryState) (flag : Bool) (g n : String) (b : Binding) (rest : List Binding)
    (hbs : s.bindings = b :: rest) :
    (s.reset flag).cache = []
    ∧ (s.reset true).initialized = false
    ∧ (s.reset false).initialized = s.initialized
    ∧ (s.reset flag).discoveryRuns = s.discoveryRuns
    ∧ ((s.reset true).getLogger g n).2.initRuns = s.initRuns + 1
    ∧ ((s.reset true).getLogger g n).2.discoveryRuns = s.discoveryRuns
    ∧ ((s.reset true).getLogger g n).2.logger = some b.implId := by
  refine ⟨reset_cache s flag, reset_true_initialized s, reset_false_initialized s,
    reset_discoveryRuns s flag, ?_, ?_, ?_⟩
  · rw [getLogger_initRuns_of_uninit _ g n (reset_true_initialized s), reset_initRuns]
  · rw [getLogger_discoveryRuns, reset_discoveryRuns]
  · rw [getLogger_logger_of_uninit _ g n (reset_true_initialized s)]
    refine initStep_logger_ok _ b rest ?_
    show (s.reset true).bindings = b :: rest
    rw [reset_bindings, hbs]

/-- C6 witness: the amended behavior at one concrete binding — reset
clears the cache, and reset-with-flag makes the next access re-run
initialization. -/
theorem reset_clears_cache_and_reruns_initialization_witness :
    ((moduleLoad [⟨"vendor", "1.0.0", 7⟩]).reset false).cache = []
    ∧ (((moduleLoad [⟨"vendor", "1.0.0", 7⟩]).reset true).getLogger "" "").2.initRuns
        = (moduleLoad [⟨"vendor", "1.0.0", 7⟩]).initRuns + 1 :=
  ⟨(reset_clears_cache_and_reruns_initialization (moduleLoad [⟨"vendor", "1.0.0", 7⟩])
      false "" "" ⟨"vendor", "1.0.0", 7⟩ [] rfl).1,
   (reset_clears_cache_and_reruns_initialization (moduleLoad [⟨"vendor", "1.0.0", 7⟩])
      false "" "" ⟨"vendor", "1.0.0", 7⟩ [] rfl).2.2.2.2.1⟩

/-- C7 counterexample: with zero discovered bindings the first `getLogger`
throws, but the second call succeeds — `INITIALIZED` was set before the
throw, so initialization is not retried — and returns an instance bound
to no implementation; a severe-enough log call on it reaches the
implementation dispatch with no backend bound. This refutes "a logging
call that finds no backend bound cannot occur". -/
theorem unbound_logging_call_occurs_counterexample :
    ((moduleLoad []).getLogger "" "").1 = .error "No Logger Binding found"
    ∧ (((moduleLoad []).getLogger "" "").2.getLogger "app" "db").1
        = .ok ⟨0, "db", "app", .INFO, none, []⟩
    ∧ DefaultLoggerInstance.warn ⟨0, "db", "app", .INFO, none, []⟩ "boom" .undef none
        = .forwarded none ⟨.WARN, "app", "db", "boom", none, []⟩ :=
  ⟨rfl, rfl, rfl⟩

/-- C7 amended: the "no binding" configuration error is raised exactly
once, at first-use initialization, and propagates to the first
`getLogger` caller with no retry; below-threshold calls are pure no-ops;
but subsequent `getLogger` calls succeed and hand out instances with no
bound implementation, so a severe-enough logging call that finds no
backend bound can occur. -/
theorem no_binding_error_once_but_unbound_calls_possible
    (g n g2 n2 msg : String) :
    ((moduleLoad []).getLogger g n).1 = .error "No Logger Binding found"
    ∧ ((moduleLoad []).getLogger g n).2.initRuns = 1
    ∧ (((moduleLoad []).getLogger g n).2.getLogger g2 n2).1
        = .ok ⟨0, n2, g2, .INFO, none, []⟩
    ∧ (((moduleLoad []).getLogger g n).2.getLogger g2 n2).2.initRuns = 1
    ∧ DefaultLoggerInstance.error ⟨0, n2, g2, .INFO, none, []⟩ msg .undef none
        = .forwarded none ⟨.ERROR, g2, n2, msg, none, []⟩
    ∧ DefaultLoggerInstance.debug ⟨0, n2, g2, .INFO, none, []⟩ msg .undef none = .noop :=
  ⟨rfl, rfl, rfl, rfl, rfl, rfl⟩

/-- C8: with more than one discovered binding, the first `getLogger` call
succeeds, the first discovered binding's implementation is the active
one, exactly one informational message is emitted via the root logger
(empty group and name) listing every discovered binding's vendor and
version and naming the selected one, and no later `getLogger` call emits
another. -/
theorem multiple_bindings_select_first_and_emit_one_info
    (b1 b2 : Binding) (rest : List Binding) (g n : String) :
    (∃ i s', (moduleLoad (b1 :: b2 :: rest)).getLogger g n = (.ok i, s'))
    ∧ ((moduleLoad (b1 :: b2 :: rest)).getLogger g n).2.logger = some b1.implId
    ∧ ((moduleLoad (b1 :: b2 :: rest)).getLogger g n).2.infoEmits
        = [("", "", multipleBindingsMessage (b1 :: b2 :: rest) b1)]
    ∧ (∀ b ∈ b1 :: b2 :: rest, ∃ pre post,
        multipleBindingsMessage (b1 :: b2 :: rest) b1 = pre ++ bindingLine b ++ post)
    ∧ (∃ pre, multipleBindingsMessage (b1 :: b2 :: rest) b1
        = pre ++ ("\n  using " ++ b1.vendor ++ " - " ++ b1.version))
    ∧ (∀ g2 n2,
        ((((moduleLoad (b1 :: b2 :: rest)).getLogger g n).2).getLogger g2 n2).2.infoEmits
          = ((moduleLoad (b1 :: b2 :: rest)).getLogger g n).2.infoEmits) := by
  refine ⟨?_, ?_, ?_, ?_, multipleBindingsMessage_names_selected _ b1, ?_⟩
  · exact getLogger_ok_of_bindings_ne_nil _ g n (by simp [moduleLoad])
  · rw [getLogger_logger_of_uninit _ g n rfl]
    exact initStep_logger_ok _ b1 (b2 :: rest) rfl
  · rw [getLogger_infoEmits_of_uninit _ g n rfl,
      initStep_multi_infoEmits _ b1 b2 rest rfl rfl]
    rfl
  · intro b hb
    exact multipleBindingsMessage_lists_all _ b1 b hb
  · intro g2 n2
    exact getLogger_infoEmits_of_init _ g2 n2 (getLogger_initialized _ g n)

/-- C9: the distinct pairs ("a:b", "c") and ("a", "b:c") share the compound
key "a:b:c", so `getLogger` returns the same cached instance for both
requests; the returned instance carries the first request's stored group
"a:b" and name "c", which differ from the second request's. -/
theorem colliding_compound_keys_share_instance :
    compoundKey "a:b" "c" = compoundKey "a" "b:c"
    ∧ (("a:b", "c") : String × String) ≠ ("a", "b:c")
    ∧ (moduleLoad [⟨"vendor", "1.0.0", 7⟩]).getLogger "a:b" "c"
        = (.ok ⟨1, "c", "a:b", .INFO, some 7, []⟩,
            ((moduleLoad [⟨"vendor", "1.0.0", 7⟩]).getLogger "a:b" "c").2)
    ∧ (((moduleLoad [⟨"vendor", "1.0.0", 7⟩]).getLogger "a:b" "c").2).getLogger "a" "b:c"
        = (.ok ⟨1, "c", "a:b", .INFO, some 7, []⟩,
            ((moduleLoad [⟨"vendor", "1.0.0", 7⟩]).getLogger "a:b" "c").2)
    ∧ (⟨1, "c", "a:b", .INFO, some 7, []⟩ : LoggerInst).group ≠ "a"
    ∧ (⟨1, "c", "a:b", .INFO, some 7, []⟩ : LoggerInst).name ≠ "b:c" :=
  ⟨rfl, by decide, rfl, rfl, by decide, by decide⟩

end Slf4ts
